import Mathlib

/-!
Shallow embedding of the core of the breach-solver repository
(`src/core/structs/task.py`, `src/core/structs/solution.py`,
`src/core/base_setup.py`, `src/breach_solver/core/structs/soft_task.py`,
and the SCIP optimizer under `src/breacher/solvers/scip/`), together with
theorems checking the natural-language specification against that code.

Machine integers (numpy `int8`) are modelled as `Int` with explicit
wraparound where numpy applies it; numpy arrays are modelled as plain
lists, with a small inductive type for arrays of unknown dimensionality
where the code inspects `ndim`/`shape`; Python exceptions are modelled by
an explicit error type.
-/

namespace Breach

/-- Signed 8-bit wraparound, as numpy applies it when casting or
accumulating in dtype `int8`. -/
def toInt8 (x : Int) : Int := (x + 128) % 256 - 128

/-- Values of the `HexSymbol` alphabet of `core/base_setup.py`:
`S_STOP = -1`, `S_BLANK = 0`, and the eleven game symbols `1..11`. -/
def hexSymbolValues : List Int := [-1, 0, 1, 2, 3, 4, 5, 6, 7, 8, 9, 10, 11]

/-- Kinds of Python exception distinguished by the embedded code. -/
inductive PyErr where
  | valueError
  | indexError
  | typeError
  deriving DecidableEq, Repr

instance {ε α : Type} [DecidableEq ε] [DecidableEq α] :
    DecidableEq (Except ε α) := fun x y =>
  match x, y with
  | .ok a, .ok b =>
    if h : a = b then isTrue (by rw [h]) else isFalse (fun hh => h (by cases hh; rfl))
  | .error a, .error b =>
    if h : a = b then isTrue (by rw [h]) else isFalse (fun hh => h (by cases hh; rfl))
  | .ok _, .error _ => isFalse (fun hh => by cases hh)
  | .error _, .ok _ => isFalse (fun hh => by cases hh)

/-- Model of a numpy integer array of dimension 0, 1 or 2, as far as the
embedded code inspects `ndim` and `shape`.  A 2-d array carries its column
count explicitly so that the shape of an array with zero rows is still
known (as it is for a real `np.ndarray`). -/
inductive NpA where
  | d0 (v : Int)
  | d1 (vs : List Int)
  | d2 (cols : Nat) (rows : List (List Int))
  deriving DecidableEq, Repr

/-- Dimension count `a.ndim`. -/
def NpA.ndim : NpA → Nat
  | .d0 _ => 0
  | .d1 _ => 1
  | .d2 _ _ => 2

/-- Access `a.shape[0]`; on a 0-d array the shape tuple is empty and the
access raises `IndexError`, modelled by `none`. -/
def NpA.shape0 : NpA → Option Nat
  | .d0 _ => none
  | .d1 vs => some vs.length
  | .d2 _ rows => some rows.length

/-- Input of `Task.__post_init__` (`core/structs/task.py`): the four field
values plus the dtype facts the validator inspects (`np.issubdtype(...,
np.int8)` on the matrix and on the buffer size). -/
structure TaskInput where
  matrix : NpA
  matrixDtypeInt8 : Bool
  daemons : NpA
  daemonsCosts : NpA
  bufferSize : Int
  bufferDtypeInt8 : Bool
  deriving Repr

/-- Embeds `Task.__post_init__`.  It accumulates messages for: matrix
dtype not int8, matrix not 2-d, daemons not 2-d, daemon/cost counts
unequal, buffer size not int8-typed or not positive; then raises
`ValueError` iff any message accumulated.  The count comparison reads
`daemons.shape[0]` and `daemons_costs.shape[0]`, which raises
`IndexError` on a 0-d array before any `ValueError` can be raised.
No check relates cell values to the `HexSymbol` alphabet. -/
def taskPostInit (ti : TaskInput) : Except PyErr Unit :=
  match ti.daemons.shape0, ti.daemonsCosts.shape0 with
  | none, _ => .error .indexError
  | some _, none => .error .indexError
  | some ds, some cs =>
    if !ti.matrixDtypeInt8 || (ti.matrix.ndim != 2) || (ti.daemons.ndim != 2) ||
        (ds != cs) || !(ti.bufferDtypeInt8 && decide (0 < ti.bufferSize)) then
      .error .valueError
    else .ok ()

/-- The frozen `Task` dataclass, in its validated form: a 2-d int8 matrix,
a 2-d int8 array of daemon rows (right-padded with `S_STOP = -1`), the
per-daemon costs, and the buffer size. -/
structure Task where
  matrix : List (List Int)
  daemons : List (List Int)
  daemonsCosts : List Int
  bufferSize : Int
  deriving DecidableEq, Repr

/-- Row count `matrix.shape[0]`. -/
def Task.n (t : Task) : Nat := t.matrix.length

/-- Column count `matrix.shape[1]`. -/
def Task.m (t : Task) : Nat := (t.matrix.headD []).length

/-- Daemon count `daemons.shape[0]`. -/
def Task.dCount (t : Task) : Nat := t.daemons.length

/-- Common padded daemon row length `daemons.shape[1]`. -/
def Task.dRowLen (t : Task) : Nat := (t.daemons.headD []).length

/-- Invariants of a `Task` value as produced by a successful construction
from int8 numpy arrays: both 2-d arrays are rectangular, the cost count
matches the daemon count, the buffer size is positive, and every stored
value (being dtype int8) lies in the signed byte range. -/
def ValidTask (t : Task) : Prop :=
  (∀ row ∈ t.matrix, row.length = t.m) ∧
  (∀ row ∈ t.daemons, row.length = t.dRowLen) ∧
  t.daemonsCosts.length = t.dCount ∧
  0 < t.bufferSize ∧ t.bufferSize ≤ 127 ∧
  (∀ row ∈ t.matrix, ∀ v ∈ row, -128 ≤ v ∧ v ≤ 127) ∧
  (∀ row ∈ t.daemons, ∀ v ∈ row, -128 ≤ v ∧ v ≤ 127) ∧
  (∀ v ∈ t.daemonsCosts, -128 ≤ v ∧ v ≤ 127)

instance (t : Task) : Decidable (ValidTask t) := by
  unfold ValidTask; infer_instance

/-- The `Solution` dataclass fields, with the int8 arrays as lists and
`total_points` as an integer. -/
structure Sol where
  path : List (List Int)
  bufferSequence : List Int
  activeDaemons : List Bool
  totalPoints : Int
  deriving DecidableEq, Repr

/-- Result of `Solution.from_task`: an uncaught exception propagating to
the caller, a returned `NoSolution`, or a returned `Solution`. -/
inductive FTRes where
  | raised (e : PyErr)
  | noSolution
  | solution (s : Sol)
  deriving DecidableEq, Repr

/-- Python-style list indexing as numpy applies it to integer indices:
an index `i` with `0 ≤ i < len` reads position `i`, an index with
`-len ≤ i < 0` wraps around and reads position `i + len`, and anything
else raises `IndexError` (modelled by `none`). -/
def npIdx {α : Type} (l : List α) (i : Int) : Option α :=
  if 0 ≤ i ∧ i < l.length then l[i.toNat]?
  else if -(l.length : Int) ≤ i ∧ i < 0 then l[(i + l.length).toNat]?
  else none

/-- Reads `matrix[r, c]` with numpy index semantics on both axes. -/
def npCell (mat : List (List Int)) (r c : Int) : Option Int :=
  match npIdx mat r with
  | none => none
  | some row => npIdx row c

/-- Evaluates `task.matrix[path[:, 0], path[:, 1]]`: reads the grid at
every path coordinate, failing (IndexError) if any coordinate is out of
numpy's index range. -/
def readPath (mat : List (List Int)) (rows : List (List Int)) : Option (List Int) :=
  rows.mapM (fun rc => npCell mat (rc.getD 0 0) (rc.getD 1 0))

/-- Embeds the daemon-matching step of `Solution.from_task`: the window
length is `d.shape[0]`, the FULL padded row length (the `S_STOP` padding
is not stripped); a daemon longer than the buffer sequence is skipped,
otherwise it is active iff some sliding window of the buffer equals the
whole padded row. -/
def daemonHit (buf : List Int) (d : List Int) : Bool :=
  if buf.length < d.length then false
  else (List.range (buf.length - d.length + 1)).any (fun p =>
    (List.range d.length).all (fun s => buf.getD (p + s) 0 == d.getD s 0))

/-- Embeds `np.dot(daemons_costs, active_daemons)` before its int8
wraparound: the sum of the costs at the active positions. -/
def dotCosts (costs : List Int) (active : List Bool) : Int :=
  (costs.zip active).foldl (fun acc cb => acc + if cb.2 then cb.1 else 0) 0

/-- Embeds `Solution.from_task` (`core/structs/solution.py`).  Control
flow, in source order: a 0-d or 1-d path raises `IndexError` (the code
reads `path.shape[1]` after noting `ndim != 2`); a 2-d path with row
length other than 2 raises `ValueError`; an empty path returns
`NoSolution`; reading the grid at the path coordinates turns an
`IndexError` into `NoSolution`; assigning the read symbols into
`buffer[:k]` raises an uncaught broadcast `ValueError` when the path is
longer than the buffer (only `IndexError`/`TypeError` are caught there);
the daemon matching uses full padded rows (`daemonHit`); `total_points`
is the int8-accumulated dot product; and the final `Solution(...)` call
never fails, because the dataclass validation hook is misnamed
`__post__init__` and is never invoked. -/
def fromTask (p : NpA) (t : Task) : FTRes :=
  match p with
  | .d0 _ => .raised .indexError
  | .d1 _ => .raised .indexError
  | .d2 cols rows =>
    if cols != 2 then .raised .valueError
    else if rows.length == 0 then .noSolution
    else
      match readPath t.matrix rows with
      | none => .noSolution
      | some syms =>
        if t.bufferSize < (rows.length : Int) then .raised .valueError
        else
          let active := t.daemons.map (fun d => daemonHit syms d)
          let total := toInt8 (dotCosts t.daemonsCosts active)
          .solution ⟨rows, syms, active, total⟩

/-- Embeds the body of `Solution.__post__init__` exactly as written
(shape `(n, 2)` with `n > 0` for the path, matching buffer length,
1-d active array, strictly positive int64 total), returning `ValueError`
when any check fails.  The dataclass hook is `__post_init__` (one double
underscore); this method, spelled `__post__init__`, is therefore dead
code: constructing a `Solution` never runs it. -/
def solutionPostInitBody (s : Sol) : Except PyErr Unit :=
  let m1 : Bool := s.path.length == 0 || (s.path.headD []).length != 2
  let m2 : Bool := s.bufferSequence.length != s.path.length
  let m4 : Bool := !(decide (0 < s.totalPoints))
  if m1 || m2 || m4 then .error .valueError else .ok ()

/-- Embeds `Solution.__lt__` between two `Solution` values, exactly as
written: when the totals differ it returns the result of the `!=`
comparison (not `<`); only on equal totals does it compare path lengths. -/
def solutionLt (a b : Sol) : Bool :=
  if a.totalPoints != b.totalPoints then a.totalPoints != b.totalPoints
  else decide (a.path.length < b.path.length)

/-- Embeds `Solution.__eq__` between two `Solution` values: equality of
`total_points` only. -/
def solutionEqPy (a b : Sol) : Bool :=
  a.totalPoints == b.totalPoints

/-- Result of a Python comparison method: either the `NotImplemented`
constant or an actual boolean. -/
inductive PyRes where
  | notImplemented
  | bool (b : Bool)
  deriving DecidableEq, Repr

/-- Truthiness of such a result: Python's `bool(NotImplemented)` is
`True`. -/
def pyTruthy : PyRes → Bool
  | .notImplemented => true
  | .bool b => b

/-- Embeds `Task.is_identical`: `NotImplemented` for a non-`Task`
argument (modelled by `none`), field-wise array equality otherwise. -/
def taskIsIdentical (t : Task) (other : Option Task) : PyRes :=
  match other with
  | none => .notImplemented
  | some u => .bool (t == u)

/-- Embeds `Solution.is_identical`: `NotImplemented` for a non-`Solution`
argument (modelled by `none`), field-wise equality of path, buffer
sequence, active daemons and total points otherwise. -/
def solutionIsIdentical (s : Sol) (other : Option Sol) : PyRes :=
  match other with
  | none => .notImplemented
  | some u => .bool (s == u)

/-- Follows the SPEC's words (not the code), for comparison with the
implementation's matching: the true length `L` of a daemon row is its
count of non-STOP symbols, and the daemon is active iff its first `L`
symbols occur as a contiguous run at some offset `p` with
`0 ≤ p ≤ k - L` inside the buffer sequence. -/
def specDaemonActiveB (buf : List Int) (d : List Int) : Bool :=
  let L := (d.filter (fun v => v != -1)).length
  decide (L ≤ buf.length) && (List.range (buf.length - L + 1)).any (fun p =>
    (List.range L).all (fun s => buf.getD (p + s) 0 == (d.take L).getD s 0))

/-- Valid task with a 1x2 grid `[1C, 55]`, one daemon `[1C]` padded with
STOP to `[1, -1]`, cost 3, buffer capacity 2. -/
def padTask : Task := ⟨[[1, 2]], [[1, -1]], [3], 2⟩

/-- Valid task with a 2x1 grid, one daemon `[1C]`, cost 1, buffer 2. -/
def colTask : Task := ⟨[[1], [2]], [[1]], [1], 2⟩

/-- Valid task with a 1x1 grid holding `1C`, one daemon `[55]` that the
grid can never satisfy, cost 1, buffer 1. -/
def missTask : Task := ⟨[[1]], [[2]], [1], 1⟩

/-- A sample `Solution` value for concrete evaluations. -/
def sampleSol : Sol := ⟨[[0, 0]], [1], [false], 0⟩

/- ------------------------------------------------------------------ -/
/- Helper lemmas about numpy indexing and the scoring pipeline. -/
/- ------------------------------------------------------------------ -/

/-- Grid value at Nat coordinates, with out-of-range reads defaulting. -/
def matAt (t : Task) (i j : Nat) : Int := (t.matrix.getD i []).getD j 0

/-- Symbols read off the grid along a path whose coordinates are all in
numpy index range; the value `from_task` assigns into `buffer[:k]`. -/
def pathSyms (t : Task) (rows : List (List Int)) : List Int :=
  rows.map (fun rc => (npCell t.matrix (rc.getD 0 0) (rc.getD 1 0)).getD 0)

theorem npIdx_isSome_iff {α : Type} (l : List α) (i : Int) :
    (npIdx l i).isSome ↔ (-(l.length : Int) ≤ i ∧ i < l.length) := by
  unfold npIdx
  by_cases h1 : 0 ≤ i ∧ i < (l.length : Int)
  · rw [if_pos h1]
    have hlt : i.toNat < l.length := by omega
    rw [List.getElem?_eq_getElem hlt]
    simp only [Option.isSome_some, true_iff]
    omega
  · rw [if_neg h1]
    by_cases h2 : -(l.length : Int) ≤ i ∧ i < 0
    · rw [if_pos h2]
      have hlt : (i + l.length).toNat < l.length := by omega
      rw [List.getElem?_eq_getElem hlt]
      simp only [Option.isSome_some, true_iff]
      omega
    · rw [if_neg h2]
      simp only [Option.isSome_none, Bool.false_eq_true, false_iff]
      omega

theorem npIdx_nonneg_eq {α : Type} (l : List α) (i : Int) (d : α)
    (h0 : 0 ≤ i) (hl : i < (l.length : Int)) :
    npIdx l i = some (l.getD i.toNat d) := by
  unfold npIdx
  rw [if_pos ⟨h0, hl⟩]
  have hlt : i.toNat < l.length := by omega
  rw [List.getElem?_eq_getElem hlt, List.getD_eq_getElem l d hlt]

theorem npIdx_mem {α : Type} (l : List α) (i : Int) (a : α)
    (h : npIdx l i = some a) : a ∈ l := by
  unfold npIdx at h
  by_cases h1 : 0 ≤ i ∧ i < (l.length : Int)
  · rw [if_pos h1] at h
    exact List.getElem?_mem h
  · rw [if_neg h1] at h
    by_cases h2 : -(l.length : Int) ≤ i ∧ i < 0
    · rw [if_pos h2] at h
      exact List.getElem?_mem h
    · rw [if_neg h2] at h
      cases h

theorem npCell_isSome_iff (t : Task) (hrect : ∀ row ∈ t.matrix, row.length = t.m)
    (r c : Int) :
    (npCell t.matrix r c).isSome ↔
      ((-(t.n : Int) ≤ r ∧ r < t.n) ∧ (-(t.m : Int) ≤ c ∧ c < t.m)) := by
  unfold npCell
  cases hidx : npIdx t.matrix r with
  | none =>
    have hr : ¬(-(t.matrix.length : Int) ≤ r ∧ r < t.matrix.length) := by
      intro hb
      have := (npIdx_isSome_iff t.matrix r).mpr hb
      rw [hidx] at this
      cases this
    simp only [Option.isSome_none, Bool.false_eq_true, false_iff]
    intro hb
    exact hr hb.1
  | some row =>
    have hr : (-(t.matrix.length : Int) ≤ r ∧ r < t.matrix.length) :=
      (npIdx_isSome_iff t.matrix r).mp (by rw [hidx]; rfl)
    have hrowlen : row.length = t.m := hrect row (npIdx_mem t.matrix r row hidx)
    rw [npIdx_isSome_iff, hrowlen]
    have hn : t.n = t.matrix.length := rfl
    rw [hn]
    exact ⟨fun hc => ⟨hr, hc⟩, fun hc => hc.2⟩

theorem npCell_nat_eq (t : Task) (hrect : ∀ row ∈ t.matrix, row.length = t.m)
    (i j : Nat) (hi : i < t.n) (hj : j < t.m) :
    npCell t.matrix (i : Int) (j : Int) = some (matAt t i j) := by
  have hi' : (i : Int) < (t.matrix.length : Int) := by
    have hn : t.n = t.matrix.length := rfl
    omega
  have hrowlen : (t.matrix.getD i []).length = t.m := by
    have hilt : i < t.matrix.length := by omega
    rw [List.getD_eq_getElem t.matrix [] hilt]
    exact hrect _ (List.getElem_mem hilt)
  have hj' : (j : Int) < ((t.matrix.getD i []).length : Int) := by omega
  have h1 : npIdx t.matrix (i : Int) = some (t.matrix.getD i []) := by
    have hstep := npIdx_nonneg_eq t.matrix (i : Int) [] (by omega) hi'
    simpa using hstep
  have h2 : npIdx (t.matrix.getD i []) (j : Int)
      = some ((t.matrix.getD i []).getD j 0) := by
    have hstep := npIdx_nonneg_eq (t.matrix.getD i []) (j : Int) 0 (by omega) hj'
    simpa using hstep
  unfold npCell
  rw [h1]
  show npIdx (t.matrix.getD i []) (j : Int) = some (matAt t i j)
  rw [h2]
  rfl

theorem readPath_some (mat : List (List Int)) (rows : List (List Int))
    (h : ∀ rc ∈ rows, (npCell mat (rc.getD 0 0) (rc.getD 1 0)).isSome) :
    readPath mat rows
      = some (rows.map (fun rc => (npCell mat (rc.getD 0 0) (rc.getD 1 0)).getD 0)) := by
  unfold readPath
  induction rows with
  | nil => rfl
  | cons rc rest ih =>
    have h1 := h rc (List.mem_cons_self rc rest)
    obtain ⟨v, hv⟩ := Option.isSome_iff_exists.mp h1
    have ih' := ih (fun rc' h' => h rc' (List.mem_cons_of_mem rc h'))
    simp only [List.mapM_cons, hv, ih', List.map_cons, Option.pure_def,
      Option.bind_some, Option.bind_eq_bind, Option.some_bind, Option.getD_some]

theorem readPath_none (mat : List (List Int)) (rows : List (List Int))
    (h : ∃ rc ∈ rows, npCell mat (rc.getD 0 0) (rc.getD 1 0) = none) :
    readPath mat rows = none := by
  unfold readPath
  induction rows with
  | nil =>
    obtain ⟨rc, hrc, -⟩ := h
    cases hrc
  | cons rc rest ih =>
    obtain ⟨rc', hrc', hnone⟩ := h
    rcases List.mem_cons.mp hrc' with rfl | hmem
    · simp only [List.mapM_cons, hnone, Option.bind_eq_bind, Option.none_bind]
    · cases hcell : npCell mat (rc.getD 0 0) (rc.getD 1 0) with
      | none => simp only [List.mapM_cons, hcell, Option.bind_eq_bind, Option.none_bind]
      | some v =>
        simp only [List.mapM_cons, hcell, ih ⟨rc', hmem, hnone⟩,
          Option.bind_eq_bind, Option.some_bind, Option.none_bind]

theorem fromTask_d2 (t : Task) (cols : Nat) (rows : List (List Int)) :
    fromTask (.d2 cols rows) t =
      (if cols != 2 then .raised .valueError
      else if rows.length == 0 then .noSolution
      else
        match readPath t.matrix rows with
        | none => .noSolution
        | some syms =>
          if t.bufferSize < (rows.length : Int) then .raised .valueError
          else .solution ⟨rows, syms, t.daemons.map (fun d => daemonHit syms d),
              toInt8 (dotCosts t.daemonsCosts
                (t.daemons.map (fun d => daemonHit syms d)))⟩) := rfl

theorem fromTask_success (t : Task) (rows : List (List Int))
    (hne : rows ≠ [])
    (hsome : ∀ rc ∈ rows, (npCell t.matrix (rc.getD 0 0) (rc.getD 1 0)).isSome)
    (hlen : (rows.length : Int) ≤ t.bufferSize) :
    fromTask (.d2 2 rows) t =
      .solution ⟨rows, pathSyms t rows,
        t.daemons.map (fun d => daemonHit (pathSyms t rows) d),
        toInt8 (dotCosts t.daemonsCosts
          (t.daemons.map (fun d => daemonHit (pathSyms t rows) d)))⟩ := by
  have hstep : fromTask (.d2 2 rows) t =
      (if t.bufferSize < (rows.length : Int) then FTRes.raised PyErr.valueError
      else .solution ⟨rows, pathSyms t rows,
        t.daemons.map (fun d => daemonHit (pathSyms t rows) d),
        toInt8 (dotCosts t.daemonsCosts
          (t.daemons.map (fun d => daemonHit (pathSyms t rows) d)))⟩) := by
    rw [fromTask_d2, if_neg (by decide), if_neg (by simp [hne]),
      readPath_some t.matrix rows hsome]
    rfl
  rw [hstep, if_neg (not_lt.mpr hlen)]

theorem fromTask_reduce (t : Task) (rows : List (List Int)) (hne : rows ≠ [])
    (hsome : ∀ rc ∈ rows, (npCell t.matrix (rc.getD 0 0) (rc.getD 1 0)).isSome) :
    fromTask (.d2 2 rows) t =
      (if t.bufferSize < (rows.length : Int) then FTRes.raised PyErr.valueError
      else .solution ⟨rows, pathSyms t rows,
        t.daemons.map (fun d => daemonHit (pathSyms t rows) d),
        toInt8 (dotCosts t.daemonsCosts
          (t.daemons.map (fun d => daemonHit (pathSyms t rows) d)))⟩) := by
  rw [fromTask_d2, if_neg (by decide), if_neg (by simp [hne]),
    readPath_some t.matrix rows hsome]
  rfl

theorem daemonHit_iff (buf d : List Int) :
    daemonHit buf d = true ↔
      (d.length ≤ buf.length ∧ ∃ p ∈ Finset.range (buf.length - d.length + 1),
        ∀ j ∈ Finset.range d.length, buf.getD (p + j) 0 = d.getD j 0) := by
  unfold daemonHit
  by_cases h : buf.length < d.length
  · rw [if_pos h]
    constructor
    · intro hf; cases hf
    · rintro ⟨hle, -⟩; omega
  · rw [if_neg h]
    rw [List.any_eq_true]
    constructor
    · rintro ⟨p, hp, hall⟩
      rw [List.mem_range] at hp
      rw [List.all_eq_true] at hall
      refine ⟨by omega, p, Finset.mem_range.mpr hp, fun j hj => ?_⟩
      exact eq_of_beq (hall j (List.mem_range.mpr (Finset.mem_range.mp hj)))
    · rintro ⟨hle, p, hp, hall⟩
      refine ⟨p, List.mem_range.mpr (Finset.mem_range.mp hp), ?_⟩
      rw [List.all_eq_true]
      intro j hj
      exact beq_iff_eq.mpr (hall j (Finset.mem_range.mpr (List.mem_range.mp hj)))

theorem getD_map_lt {α β : Type} (l : List α) (f : α → β) (i : Nat)
    (h : i < l.length) (d : β) (d' : α) :
    (l.map f).getD i d = f (l.getD i d') := by
  rw [List.getD_eq_getElem _ _ (by simpa using h), List.getD_eq_getElem _ _ h,
    List.getElem_map]

theorem foldl_add_shift (g : Int × Bool → Int) (l : List (Int × Bool)) (init : Int) :
    l.foldl (fun acc cb => acc + g cb) init = init + (l.map g).sum := by
  induction l generalizing init with
  | nil => simp
  | cons a as ih => simp [ih]; ring

theorem zipIf_sum (costs : List Int) (active : List Bool)
    (h : costs.length = active.length) :
    ((costs.zip active).map (fun cb => if cb.2 then cb.1 else 0)).sum
      = ∑ i ∈ Finset.range costs.length,
          (if active.getD i false then costs.getD i 0 else 0) := by
  induction costs generalizing active with
  | nil => simp
  | cons c cs ih =>
    cases active with
    | nil => cases h
    | cons a as =>
      have h' : cs.length = as.length := by simpa using h
      rw [List.zip_cons_cons, List.map_cons, List.sum_cons, List.length_cons,
        Finset.sum_range_succ']
      simp only [List.getD_cons_succ, List.getD_cons_zero]
      rw [ih as h']
      ring

theorem dotCosts_eq_sum (costs : List Int) (active : List Bool)
    (h : costs.length = active.length) :
    dotCosts costs active = ∑ i ∈ Finset.range costs.length,
      (if active.getD i false then costs.getD i 0 else 0) := by
  unfold dotCosts
  rw [foldl_add_shift, zero_add, zipIf_sum costs active h]

/- ------------------------------------------------------------------ -/
/- The mutable pre-validation structure (SoftTask). -/
/- ------------------------------------------------------------------ -/

/-- Embeds `mapper_to_int` (`DISPLAY_TO_HEX.__getitem__`): display label
to symbol value; an unknown label raises `KeyError`, modelled by `none`. -/
def mapperToInt (s : String) : Option Int :=
  if s = "??" then some (-1)
  else if s = " ▧" then some 0
  else if s = "1C" then some 1
  else if s = "55" then some 2
  else if s = "BD" then some 3
  else if s = "E9" then some 4
  else if s = "7A" then some 5
  else if s = "FF" then some 6
  else if s = "X9" then some 7
  else if s = "XX" then some 8
  else if s = "XH" then some 9
  else if s = "IX" then some 10
  else if s = "XR" then some 11
  else none

/-- The `SoftTask` mutable pre-validation dataclass: label matrices, a
buffer size, and the current costs list. -/
structure SoftTask where
  matrix : List (List String)
  daemons : List (List String)
  bufferSize : Int
  costs : List Int
  deriving DecidableEq, Repr

/-- Embeds `SoftTask.recalc_costs`: overwrites all previously set costs
with the length of each daemon sequence. -/
def softTaskRecalcCosts (st : SoftTask) : SoftTask :=
  { st with costs := st.daemons.map (fun row => (row.length : Int)) }

/-- Embeds `SoftTask.__init__` for well-typed inputs: validates
`buffer_size ≥ 0`, stores the supplied costs (empty list when the caller
supplies none), and then UNCONDITIONALLY calls `recalc_costs`, which
overwrites the stored costs with the daemon lengths — whether or not the
caller supplied an explicit costs list. -/
def softTaskInit (matrix : List (List String)) (daemons : List (List String))
    (bufferSize : Int) (costs : Option (List Int)) : Except PyErr SoftTask :=
  if bufferSize < 0 then .error .valueError
  else .ok (softTaskRecalcCosts ⟨matrix, daemons, bufferSize, costs.getD []⟩)

/-- Embeds `SoftTask._padded_daemons`: right-pads every daemon row with
the STOP display label to the maximum row length; with no daemons at all
the `max()` call raises (modelled by `none`, converted to `ValueError`
by `make_hard`). -/
def paddedDaemons (daemons : List (List String)) : Option (List (List String)) :=
  match (daemons.map List.length).max? with
  | none => none
  | some maxLen =>
    some (daemons.map (fun row => row ++ List.replicate (maxLen - row.length) "??"))

/-- Embeds `SoftTask.make_hard`: maps the display labels to symbol
values, builds int8 numpy arrays, and constructs the frozen `Task`; any
exception along the way (unknown label, ragged matrix, or a `Task`
validation failure) is caught and re-raised as `ValueError`.  The
degenerate case of a matrix with no rows is not modelled (a real
`np.array([])` is 1-d and fails `Task` validation anyway). -/
def makeHard (st : SoftTask) : Except PyErr Task :=
  match paddedDaemons st.daemons with
  | none => .error .valueError
  | some pd =>
    match st.matrix.mapM (fun row => row.mapM mapperToInt),
        pd.mapM (fun row => row.mapM mapperToInt) with
    | some mat, some dmns =>
      let cols := (mat.headD []).length
      if mat.any (fun row => row.length != cols) then .error .valueError
      else
        let input : TaskInput := ⟨.d2 cols mat, true, .d2 (dmns.headD []).length dmns,
          .d1 (st.costs.map toInt8), toInt8 st.bufferSize, true⟩
        match taskPostInit input with
        | .error _ => .error .valueError
        | .ok _ => .ok ⟨mat, dmns, st.costs.map toInt8, toInt8 st.bufferSize⟩
    | _, _ => .error .valueError

/- ------------------------------------------------------------------ -/
/- The tie-break weight of the SCIP objective. -/
/- ------------------------------------------------------------------ -/

/-- Value of a numpy float64 as far as the embedded code produces one:
a finite rational, a signed infinity, or nan. -/
inductive NpF where
  | fin (q : ℚ)
  | pinf
  | ninf
  | nan
  deriving DecidableEq, Repr

/-- Scalar case of the elementwise numpy division `costs / lengths`:
division by zero produces a signed infinity (or nan for `0 / 0`) and a
RuntimeWarning, but raises no exception. -/
def npDivScalar (c l : Int) : NpF :=
  if l ≠ 0 then .fin ((c : ℚ) / (l : ℚ))
  else if 0 < c then .pinf
  else if c < 0 then .ninf
  else .nan

/-- Pairwise minimum with `np.min` semantics: nan propagates, and the
infinities compare in the usual order. -/
def npfMin2 : NpF → NpF → NpF
  | .nan, _ => .nan
  | _, .nan => .nan
  | .ninf, _ => .ninf
  | _, .ninf => .ninf
  | .pinf, b => b
  | a, .pinf => a
  | .fin p, .fin q => .fin (min p q)

/-- Embeds `ndarray.min()`: raises `ValueError` on an empty array. -/
def npfMinList : List NpF → Except PyErr NpF
  | [] => .error .valueError
  | x :: xs => .ok (xs.foldl npfMin2 x)

/-- Multiplication of such a value by a positive rational scalar. -/
def npfScale (k : ℚ) : NpF → NpF
  | .fin q => .fin (k * q)
  | .pinf => .pinf
  | .ninf => .ninf
  | .nan => .nan

/-- Embeds `TaskContext.d_lengths`
(`np.sum(daemons != HexSymbol.S_STOP, axis=1)`): the per-daemon count of
non-STOP entries, the daemon's true length. -/
def dLengths (t : Task) : List Int :=
  t.daemons.map (fun d => ((d.filter (fun v => v != -1)).length : Int))

/-- Embeds `TaskContext.unused_cell_reward` of
`breacher/solvers/scip/context.py`:
`0.1 * (daemons_costs / d_lengths).min()`, with no guard of any kind:
an empty daemon array makes `.min()` raise `ValueError`, and a daemon of
true length zero makes the division produce an infinity or nan. -/
def unusedCellReward (t : Task) : Except PyErr NpF :=
  match npfMinList ((t.daemonsCosts.zip (dLengths t)).map
      (fun cl => npDivScalar cl.1 cl.2)) with
  | .error e => .error e
  | .ok v => .ok (npfScale (1 / 10) v)

/-- Embeds the `TaskContext.unused_cell_reward` copy of
`breach_solver/breacher/solvers/scip/context.py`.  That copy wraps the
division in `try: ... except (RuntimeWarning, ZeroDivisionError):
return 0.0`, but a numpy array division raises neither exception (it
returns inf/nan and only warns), and the `.min()` call sits outside the
try block; the guard is therefore dead code and the computed value is
identical to the unguarded copy. -/
def unusedCellReward2 (t : Task) : Except PyErr NpF := unusedCellReward t

/-- Per-daemon reward rate `cost_i / L_i` as exact rationals, the
quantity the SPEC's tie-break formula is stated with. -/
def costPerSymbol (t : Task) : List ℚ :=
  (t.daemonsCosts.zip (dLengths t)).map (fun cl => (cl.1 : ℚ) / (cl.2 : ℚ))

/-- Follows the SPEC's words: the tie-break weight
`ε = 0.1 × min_i(cost_i / L_i)` (and 0 for an empty daemon set). -/
def specTieBreakEps (t : Task) : ℚ :=
  match costPerSymbol t with
  | [] => 0
  | x :: xs => (1 / 10) * xs.foldl min x

theorem foldl_npfMin2_fin (qs : List ℚ) (a : ℚ) :
    (qs.map NpF.fin).foldl npfMin2 (.fin a) = .fin (qs.foldl min a) := by
  induction qs generalizing a with
  | nil => rfl
  | cons q qs ih => simp only [List.map_cons, List.foldl_cons, npfMin2, ih]

/- ------------------------------------------------------------------ -/
/- The SCIP model: variables, constraints, extraction. -/
/- ------------------------------------------------------------------ -/

/-- Boolean valuation of the binary variables of one built SCIP model
(`ModelRunner.build`): `x` stored step-major (`x[t][i][j]` says cell
`(i, j)` is chosen at step `t`; the source keys its dict by
`(i, j, t)`), the daemon indicators `y`, and the per-daemon start
indicators `z` (`z[i][p]` says daemon `i` starts at buffer offset `p`).
Out-of-shape reads default to `false`, so a valuation is used only
through the finitely many indices the model declares. -/
structure ScipVal where
  x : List (List (List Bool))
  y : List Bool
  z : List (List Bool)
  deriving DecidableEq, Repr

/-- Value of `x[i, j, t]` (stored step-major). -/
def xVal (v : ScipVal) (tt i j : Nat) : Bool :=
  ((v.x.getD tt []).getD i []).getD j false

/-- Value of daemon indicator `y[i]`. -/
def yVal (v : ScipVal) (i : Nat) : Bool := v.y.getD i false

/-- Value of start indicator `z[i][p]`. -/
def zVal (v : ScipVal) (i p : Nat) : Bool := (v.z.getD i []).getD p false

/-- A binary variable's 0/1 value. -/
def b2n (b : Bool) : Nat := if b then 1 else 0

/-- Sum of `f` over `range n`, mirroring the source's `quicksum` over
`range(n)`. -/
def natSum (n : Nat) (f : Nat → Nat) : Nat := ((List.range n).map f).sum

/-- Integer-valued `quicksum` over `range(n)`. -/
def intSum (n : Nat) (f : Nat → Int) : Int := ((List.range n).map f).sum

/-- Number of model steps: the buffer capacity. -/
def stepCount (t : Task) : Nat := t.bufferSize.toNat

/-- Number of cells chosen at step `tt`
(`quicksum(x[i, j, t] for i for j)`). -/
def stepUsed (t : Task) (v : ScipVal) (tt : Nat) : Nat :=
  natSum t.n (fun i => natSum t.m (fun j => b2n (xVal v tt i j)))

/-- Number of steps using cell `(i, j)`
(`quicksum(x[i, j, t] for t)`). -/
def cellUsed (t : Task) (v : ScipVal) (i j : Nat) : Nat :=
  natSum (stepCount t) (fun tt => b2n (xVal v tt i j))

/-- Total used buffer slots (`ctx.used_buffer`). -/
def usedBuffer (t : Task) (v : ScipVal) : Nat :=
  natSum (stepCount t) (fun tt => stepUsed t v tt)

/-- Value of the buffer expression at step `tt`
(`quicksum(matrix[i][j] * x[i, j, t])`). -/
def bufferVal (t : Task) (v : ScipVal) (tt : Nat) : Int :=
  intSum t.n (fun i => intSum t.m (fun j => matAt t i j * (b2n (xVal v tt i j) : Int)))

/-- True (STOP-stripped) length of daemon `i` (`ctx.d_lengths[i]`). -/
def trueLen (t : Task) (i : Nat) : Nat :=
  ((t.daemons.getD i []).filter (fun s => s != -1)).length

/-- Number of valid start offsets for daemon `i`
(`step - d_lengths[i] + 1`, clamped at 0 as `range` does). -/
def validP (t : Task) (i : Nat) : Nat := stepCount t + 1 - trueLen t i

/-- Symbol `daemons[i][s]`. -/
def dmn (t : Task) (i s : Nat) : Int := (t.daemons.getD i []).getD s 0

/-- The constraint system of `ModelRunner.build` (`runner.py`): one cell
per step, non-increasing step occupation (`continuous_path`), each cell
at most once, total within the buffer, start in row 0, column/row
alternation, the big-M indicator constraints tying `z[i][p] = 1` to an
exact match of the daemon's true pattern in the buffer expressions
(`big_m = max(HexSymbol) + 1 = 12`), and the daemon activation bounds
linking `y` and `z`.  A valuation SCIP returns satisfies all of them. -/
def ScipFeasible (t : Task) (v : ScipVal) : Prop :=
  (∀ tt < stepCount t, stepUsed t v tt ≤ 1) ∧
  (∀ tt < stepCount t, 1 ≤ tt → stepUsed t v tt ≤ stepUsed t v (tt - 1)) ∧
  (∀ i < t.n, ∀ j < t.m, cellUsed t v i j ≤ 1) ∧
  usedBuffer t v ≤ stepCount t ∧
  (∀ i < t.n, 1 ≤ i → natSum t.m (fun j => b2n (xVal v 0 i j)) = 0) ∧
  (∀ tt < stepCount t, 1 ≤ tt → ∀ i < t.n, ∀ j < t.m,
    (tt % 2 = 1 →
      b2n (xVal v tt i j) ≤ natSum t.n (fun k => b2n (xVal v (tt - 1) k j))) ∧
    (tt % 2 ≠ 1 →
      b2n (xVal v tt i j) ≤ natSum t.m (fun k => b2n (xVal v (tt - 1) i k)))) ∧
  (∀ i < t.dCount, ∀ p < validP t i, ∀ s < trueLen t i,
    dmn t i s - 12 * (1 - (b2n (zVal v i p) : Int)) ≤ bufferVal t v (p + s) ∧
    bufferVal t v (p + s) ≤ dmn t i s + 12 * (1 - (b2n (zVal v i p) : Int))) ∧
  (∀ i < t.dCount,
    (validP t i = 0 → yVal v i = false) ∧
    (0 < validP t i →
      (b2n (yVal v i) : Int) ≤ intSum (validP t i) (fun p => (b2n (zVal v i p) : Int)) ∧
      (∀ p < validP t i, b2n (zVal v i p) ≤ b2n (yVal v i))))

set_option synthInstance.maxSize 4000 in
set_option synthInstance.maxHeartbeats 1000000 in
instance (t : Task) (v : ScipVal) : Decidable (ScipFeasible t v) := by
  unfold ScipFeasible; infer_instance

/-- Cells chosen at step `tt`, in the `(i, j)` iteration order of the
extractor's comprehension. -/
def chosenCells (t : Task) (v : ScipVal) (tt : Nat) : List (Nat × Nat) :=
  (List.range t.n).flatMap (fun i => (List.range t.m).filterMap
    (fun j => if xVal v tt i j then some (i, j) else none))

/-- Embeds `ResultExtractor.path`: the chosen cells ordered by
`(t, i, j)`, packed into an int8 coordinate array. -/
def scipPath (t : Task) (v : ScipVal) : List (List Int) :=
  ((List.range (stepCount t)).flatMap (fun tt => chosenCells t v tt)).map
    (fun ij => [toInt8 (ij.1 : Int), toInt8 (ij.2 : Int)])

/-- Embeds `ResultExtractor.buffer_nums`: the rounded buffer expression
at EVERY step `t in range(buffer_size)`, cast to int8 — always
`buffer_size` entries, zero for steps after the path stops. -/
def scipBufferNums (t : Task) (v : ScipVal) : List Int :=
  (List.range (stepCount t)).map (fun tt => toInt8 (bufferVal t v tt))

/-- Embeds `ResultExtractor.active_daemons`: the rounded `y` values. -/
def scipActive (t : Task) (v : ScipVal) : List Bool :=
  (List.range t.dCount).map (fun i => yVal v i)

/-- Embeds `ResultExtractor.total_points`:
`np.int64(np.dot(daemons_costs, active_daemons))`, accumulated in int8
as the dtype promotion of `int8 @ bool` dictates. -/
def scipTotalPoints (t : Task) (v : ScipVal) : Int :=
  toInt8 (dotCosts t.daemonsCosts (scipActive t v))

/-- Embeds the tail of `ScipSolver.solve`: `NoSolution` for an empty
extracted path, otherwise a `Solution` packaged directly from the four
extractor fields (no re-scoring). -/
def scipSolve (t : Task) (v : ScipVal) : FTRes :=
  if (scipPath t v).length = 0 then .noSolution
  else .solution ⟨scipPath t v, scipBufferNums t v, scipActive t v, scipTotalPoints t v⟩

/-- Embeds the objective of `ModelRunner._set_objective`:
`Σ cost_i · y_i + ε · (step − used_buffer)`. -/
def scipObjective (t : Task) (eps : ℚ) (v : ScipVal) : ℚ :=
  ((intSum t.dCount (fun i => t.daemonsCosts.getD i 0 * (b2n (yVal v i) : Int)) : Int) : ℚ)
    + eps * ((stepCount t : ℚ) - (usedBuffer t v : ℚ))

/- ------------------------------------------------------------------ -/
/- Structure of feasible valuations. -/
/- ------------------------------------------------------------------ -/

theorem natSum_succ (n : Nat) (f : Nat → Nat) : natSum (n + 1) f = natSum n f + f n := by
  unfold natSum
  rw [List.range_succ, List.map_append, List.sum_append]
  simp

theorem intSum_succ (n : Nat) (f : Nat → Int) : intSum (n + 1) f = intSum n f + f n := by
  unfold intSum
  rw [List.range_succ, List.map_append, List.sum_append]
  simp

theorem intSum_zero (n : Nat) (f : Nat → Int) (h : ∀ i < n, f i = 0) :
    intSum n f = 0 := by
  induction n with
  | zero => rfl
  | succ n ih =>
    rw [intSum_succ, ih (fun i hi => h i (by omega)), h n (by omega)]
    simp

theorem intSum_eq_single (n : Nat) (f : Nat → Int) (a : Nat) (ha : a < n)
    (h : ∀ i < n, i ≠ a → f i = 0) : intSum n f = f a := by
  induction n with
  | zero => omega
  | succ n ih =>
    rw [intSum_succ]
    by_cases han : a = n
    · rw [intSum_zero n f (fun i hi => h i (by omega) (by omega)), han]
      simp
    · rw [ih (by omega) (fun i hi hia => h i (by omega) hia),
        h n (by omega) (by omega)]
      simp

theorem unitPrefix_getD (c : List Nat) (h1 : ∀ x ∈ c, x ≤ 1)
    (h2 : ∀ i, i + 1 < c.length → c.getD (i + 1) 0 ≤ c.getD i 0) :
    ∀ tt, c.getD tt 0 = if tt < c.sum then 1 else 0 := by
  induction c with
  | nil =>
    intro tt
    simp
  | cons a rest ih =>
    have ha : a ≤ 1 := h1 a (List.mem_cons_self a rest)
    have hrest1 : ∀ x ∈ rest, x ≤ 1 := fun x hx => h1 x (List.mem_cons_of_mem a hx)
    have hrest2 : ∀ i, i + 1 < rest.length → rest.getD (i + 1) 0 ≤ rest.getD i 0 := by
      intro i hi
      have hstep := h2 (i + 1) (by simp; omega)
      simpa [List.getD_cons_succ] using hstep
    have ihr := ih hrest1 hrest2
    rcases Nat.le_one_iff_eq_zero_or_eq_one.mp ha with rfl | rfl
    · have hsum : rest.sum = 0 := by
        by_contra hs
        have hpos : 0 < rest.sum := by omega
        have hhead : rest.getD 0 0 = 1 := by rw [ihr 0, if_pos hpos]
        have hle : rest.getD 0 0 ≤ 0 := by
          have hlen : 0 < rest.length := by
            by_contra hl
            have : rest = [] := List.length_eq_zero.mp (by omega)
            subst this
            simp at hpos
          have hstep := h2 0 (by simpa using hlen)
          simpa [List.getD_cons_succ, List.getD_cons_zero] using hstep
        omega
      intro tt
      cases tt with
      | zero => simp [hsum]
      | succ tt =>
        rw [List.getD_cons_succ, ihr tt]
        simp [hsum]
    · intro tt
      cases tt with
      | zero => simp
      | succ tt =>
        rw [List.getD_cons_succ, ihr tt]
        have : (1 :: rest).sum = rest.sum + 1 := by simp [Nat.add_comm]
        rw [this]
        by_cases htt : tt < rest.sum
        · rw [if_pos htt, if_pos (by omega)]
        · rw [if_neg htt, if_neg (by omega)]

theorem sum_le_length_of_le_one (c : List Nat) (h1 : ∀ x ∈ c, x ≤ 1) :
    c.sum ≤ c.length := by
  induction c with
  | nil => simp
  | cons a rest ih =>
    have ha : a ≤ 1 := h1 a (List.mem_cons_self a rest)
    have := ih (fun x hx => h1 x (List.mem_cons_of_mem a hx))
    simp only [List.sum_cons, List.length_cons]
    omega

theorem length_filterMap_if {α β : Type} (l : List α) (p : α → Bool) (g : α → β) :
    (l.filterMap (fun a => if p a then some (g a) else none)).length
      = (l.map (fun a => if p a then 1 else 0)).sum := by
  induction l with
  | nil => rfl
  | cons a as ih =>
    by_cases hp : p a
    · simp [List.filterMap_cons, hp, ih]
      omega
    · simp [List.filterMap_cons, hp, ih]

theorem chosenCells_length (t : Task) (v : ScipVal) (tt : Nat) :
    (chosenCells t v tt).length = stepUsed t v tt := by
  unfold chosenCells stepUsed
  rw [List.length_flatMap]
  unfold natSum
  congr 1
  apply List.map_congr_left
  intro i _
  show (List.filterMap _ (List.range t.m)).length = _
  rw [length_filterMap_if (List.range t.m) (fun j => xVal v tt i j) (fun j => (i, j))]
  rfl

theorem mem_chosenCells (t : Task) (v : ScipVal) (tt a b : Nat) :
    (a, b) ∈ chosenCells t v tt ↔ a < t.n ∧ b < t.m ∧ xVal v tt a b = true := by
  unfold chosenCells
  rw [List.mem_flatMap]
  constructor
  · rintro ⟨i, hi, hmem⟩
    rw [List.mem_filterMap] at hmem
    obtain ⟨j, hj, hif⟩ := hmem
    by_cases hx : xVal v tt i j
    · rw [if_pos hx] at hif
      cases hif
      exact ⟨List.mem_range.mp hi, List.mem_range.mp hj, hx⟩
    · rw [if_neg hx] at hif
      cases hif
  · rintro ⟨ha, hb, hx⟩
    refine ⟨a, List.mem_range.mpr ha, List.mem_filterMap.mpr ⟨b, List.mem_range.mpr hb, ?_⟩⟩
    rw [if_pos hx]

theorem stepUsed_shape (t : Task) (v : ScipVal) (hf : ScipFeasible t v)
    (tt : Nat) (htt : tt < stepCount t) :
    stepUsed t v tt = if tt < usedBuffer t v then 1 else 0 := by
  have hgetD : ∀ i < stepCount t,
      ((List.range (stepCount t)).map (stepUsed t v)).getD i 0 = stepUsed t v i := by
    intro i hi
    rw [getD_map_lt (List.range (stepCount t)) (stepUsed t v) i (by simpa using hi) 0 0,
      List.getD_eq_getElem _ _ (by simpa using hi), List.getElem_range]
  have h1 : ∀ x ∈ (List.range (stepCount t)).map (stepUsed t v), x ≤ 1 := by
    intro x hx
    rw [List.mem_map] at hx
    obtain ⟨i, hi, rfl⟩ := hx
    exact hf.1 i (List.mem_range.mp hi)
  have h2 : ∀ i, i + 1 < ((List.range (stepCount t)).map (stepUsed t v)).length →
      ((List.range (stepCount t)).map (stepUsed t v)).getD (i + 1) 0
        ≤ ((List.range (stepCount t)).map (stepUsed t v)).getD i 0 := by
    intro i hi
    rw [List.length_map, List.length_range] at hi
    rw [hgetD (i + 1) hi, hgetD i (by omega)]
    have := hf.2.1 (i + 1) hi (by omega)
    simpa using this
  have hmain := unitPrefix_getD _ h1 h2 tt
  rw [hgetD tt htt] at hmain
  have hsum : ((List.range (stepCount t)).map (stepUsed t v)).sum = usedBuffer t v := rfl
  rw [hsum] at hmain
  exact hmain

/-- The chosen cell at a step (meaningful only when exactly one cell is
chosen there). -/
def cellAt (t : Task) (v : ScipVal) (tt : Nat) : Nat × Nat :=
  (chosenCells t v tt).headD (0, 0)

theorem chosen_single (t : Task) (v : ScipVal) (hf : ScipFeasible t v)
    (tt : Nat) (htt : tt < stepCount t) (hlt : tt < usedBuffer t v) :
    chosenCells t v tt = [cellAt t v tt] := by
  have h1 : (chosenCells t v tt).length = 1 := by
    rw [chosenCells_length, stepUsed_shape t v hf tt htt, if_pos hlt]
  obtain ⟨ab, hab⟩ := List.length_eq_one.mp h1
  rw [hab]
  unfold cellAt
  rw [hab]
  rfl

theorem chosen_empty (t : Task) (v : ScipVal) (hf : ScipFeasible t v)
    (tt : Nat) (htt : tt < stepCount t) (hge : usedBuffer t v ≤ tt) :
    chosenCells t v tt = [] := by
  have h1 : (chosenCells t v tt).length = 0 := by
    rw [chosenCells_length, stepUsed_shape t v hf tt htt, if_neg (by omega)]
  exact List.length_eq_zero.mp h1

theorem cellAt_spec (t : Task) (v : ScipVal) (hf : ScipFeasible t v)
    (tt : Nat) (htt : tt < stepCount t) (hlt : tt < usedBuffer t v) :
    (cellAt t v tt).1 < t.n ∧ (cellAt t v tt).2 < t.m ∧
      xVal v tt (cellAt t v tt).1 (cellAt t v tt).2 = true := by
  have hcc := chosen_single t v hf tt htt hlt
  have hmem : ((cellAt t v tt).1, (cellAt t v tt).2) ∈ chosenCells t v tt := by
    rw [hcc]
    exact List.mem_singleton.mpr rfl
  exact (mem_chosenCells t v tt _ _).mp hmem

theorem bufferVal_single (t : Task) (v : ScipVal) (hf : ScipFeasible t v)
    (tt : Nat) (htt : tt < stepCount t) (hlt : tt < usedBuffer t v) :
    bufferVal t v tt = matAt t (cellAt t v tt).1 (cellAt t v tt).2 := by
  obtain ⟨ha, hb, hx⟩ := cellAt_spec t v hf tt htt hlt
  have hcc := chosen_single t v hf tt htt hlt
  have hxonly : ∀ i j, i < t.n → j < t.m → xVal v tt i j = true →
      (i, j) = cellAt t v tt := by
    intro i j hi hj hxij
    have hm : (i, j) ∈ chosenCells t v tt :=
      (mem_chosenCells t v tt i j).mpr ⟨hi, hj, hxij⟩
    rw [hcc] at hm
    exact List.mem_singleton.mp hm
  unfold bufferVal
  rw [intSum_eq_single t.n _ (cellAt t v tt).1 ha]
  · rw [intSum_eq_single t.m _ (cellAt t v tt).2 hb]
    · rw [hx]
      simp [b2n]
    · intro j hj hja
      cases hxj : xVal v tt (cellAt t v tt).1 j with
      | false => simp [b2n]
      | true =>
        have := hxonly _ _ ha hj hxj
        exact absurd (congrArg Prod.snd this) hja
  · intro i hi hia
    apply intSum_zero
    intro j hj
    cases hxj : xVal v tt i j with
    | false => simp [b2n]
    | true =>
      have := hxonly _ _ hi hj hxj
      exact absurd (congrArg Prod.fst this) hia

theorem flatMap_singleton_map {α β : Type} (l : List α) (f : α → List β) (g : α → β)
    (h : ∀ a ∈ l, f a = [g a]) : l.flatMap f = l.map g := by
  induction l with
  | nil => rfl
  | cons a as ih =>
    rw [List.flatMap_cons, List.map_cons, h a (List.mem_cons_self a as),
      ih (fun x hx => h x (List.mem_cons_of_mem a hx))]
    rfl

theorem flatMap_nil_of {α β : Type} (l : List α) (f : α → List β)
    (h : ∀ a ∈ l, f a = []) : l.flatMap f = [] := by
  induction l with
  | nil => rfl
  | cons a as ih =>
    rw [List.flatMap_cons, h a (List.mem_cons_self a as),
      ih (fun x hx => h x (List.mem_cons_of_mem a hx))]
    rfl

theorem scipPath_structure (t : Task) (v : ScipVal) (hf : ScipFeasible t v) :
    scipPath t v = (List.range (usedBuffer t v)).map
      (fun tt => [toInt8 ((cellAt t v tt).1 : Int), toInt8 ((cellAt t v tt).2 : Int)]) := by
  have hk : usedBuffer t v ≤ stepCount t := hf.2.2.2.1
  unfold scipPath
  rw [show stepCount t = usedBuffer t v + (stepCount t - usedBuffer t v) by omega,
    List.range_add, List.flatMap_append, List.flatMap_map]
  rw [flatMap_nil_of (List.range (stepCount t - usedBuffer t v)) _ (fun x hx => by
    have hxlt := List.mem_range.mp hx
    exact chosen_empty t v hf (usedBuffer t v + x) (by omega) (by omega))]
  rw [flatMap_singleton_map (List.range (usedBuffer t v)) _ (cellAt t v) (fun tt htt => by
    have httlt := List.mem_range.mp htt
    exact chosen_single t v hf tt (by omega) httlt)]
  rw [List.append_nil, List.map_map]
  rfl

theorem toInt8_eq_self (x : Int) (h1 : -128 ≤ x) (h2 : x ≤ 127) : toInt8 x = x := by
  unfold toInt8
  omega

theorem matAt_bounds (t : Task) (hv : ValidTask t) (a b : Nat)
    (ha : a < t.n) (hb : b < t.m) :
    -128 ≤ matAt t a b ∧ matAt t a b ≤ 127 := by
  have hrow : t.matrix.getD a [] ∈ t.matrix := by
    rw [List.getD_eq_getElem t.matrix [] (by exact ha)]
    exact List.getElem_mem _
  have hrlen : (t.matrix.getD a []).length = t.m := hv.1 _ hrow
  have hval : (t.matrix.getD a []).getD b 0 ∈ t.matrix.getD a [] := by
    rw [List.getD_eq_getElem _ 0 (by omega)]
    exact List.getElem_mem _
  exact hv.2.2.2.2.2.1 _ hrow _ hval

/- ------------------------------------------------------------------ -/
/- Concrete instance for claim C1. -/
/- ------------------------------------------------------------------ -/

/-- Valid task with a 1x1 grid `[1C]`, one daemon `[1C]` of cost 1, and
buffer capacity 2: the optimal path uses one of the two buffer slots. -/
def c1Task : Task := ⟨[[1]], [[1]], [1], 2⟩

/-- The optimal valuation on `c1Task`: the single cell is chosen at step
0 and the search stops; the daemon starts at offset 0 and is active. -/
def c1Val : ScipVal := ⟨[[[true]], [[false]]], [true], [[true, false]]⟩

/-- All 32 canonical valuations of the model built for `c1Task` (`x` of
shape 2 steps x 1 x 1, one `y`, two `z[0]` entries).  Every variable the
model declares appears in exactly one position, so every assignment SCIP
can return is one of these. -/
def c1AllVals : List ScipVal :=
  [false, true].flatMap (fun a => [false, true].flatMap (fun b =>
    [false, true].flatMap (fun c => [false, true].flatMap (fun d =>
      [false, true].map (fun e => (⟨[[[a]], [[b]]], [c], [[d, e]]⟩ : ScipVal))))))

/-- Ten times the objective value on `c1Task` with `ε = 1/10`, as an
integer (so that optimality can be checked by kernel evaluation). -/
def c1ObjTimes10 (v : ScipVal) : Int :=
  10 * intSum (Task.dCount c1Task)
      (fun i => c1Task.daemonsCosts.getD i 0 * (b2n (yVal v i) : Int))
    + ((stepCount c1Task : Int) - (usedBuffer c1Task v : Int))

theorem c1_obj_scale (v : ScipVal) :
    scipObjective c1Task (1 / 10) v = (c1ObjTimes10 v : ℚ) / 10 := by
  unfold scipObjective c1ObjTimes10
  push_cast
  ring

/- ------------------------------------------------------------------ -/
/- Claim theorems. -/
/- ------------------------------------------------------------------ -/

/-- Claim C3 (code bug): the `Solution` validation body is dead code.
The dataclass hook must be named `__post_init__`, but the source spells
it `__post__init__`, so no validation ever runs when a `Solution` is
constructed.  Concretely, scoring the in-grid one-cell path `[[0, 0]]`
against `missTask` activates no daemon yet returns a fully constructed
`Solution` with `total_points = 0`; the validation body, had it been
invoked, would have rejected exactly that value. -/
theorem c3_zero_total_solution_constructed :
    ValidTask missTask ∧
    fromTask (.d2 2 [[0, 0]]) missTask =
      .solution ⟨[[0, 0]], [1], [false], 0⟩ ∧
    solutionPostInitBody ⟨[[0, 0]], [1], [false], 0⟩ = .error .valueError := by
  decide

/-- Claim C4 (code bug): `Solution.__lt__` reads
`return self.total_points != other.total_points` where the strict
comparison was clearly intended (the method is guarded by exactly that
`!=` test, and `@total_ordering` plus the class docstring require an
ordering by `total_points`).  Hence both `a < b` and `b < a` hold for
two solutions with totals 2 and 1, although `2 < 1` is false. -/
theorem c4_lt_true_whenever_totals_differ :
    solutionLt ⟨[[0, 0]], [1], [true], 2⟩ ⟨[[0, 0]], [1], [true], 1⟩ = true ∧
    solutionLt ⟨[[0, 0]], [1], [true], 1⟩ ⟨[[0, 0]], [1], [true], 2⟩ = true ∧
    ¬ ((2 : Int) < 1) := by
  decide

/-- Claim C10 (confirmed): `Task.is_identical` and
`Solution.is_identical` return the `NotImplemented` constant for a
non-instance argument, and `NotImplemented` is truthy in Python, so a
direct boolean use treats any non-instance argument as identical. -/
theorem c10_is_identical_notimplemented (t : Task) (s : Sol) :
    taskIsIdentical t none = .notImplemented ∧
    pyTruthy (taskIsIdentical t none) = true ∧
    solutionIsIdentical s none = .notImplemented ∧
    pyTruthy (solutionIsIdentical s none) = true :=
  ⟨rfl, rfl, rfl, rfl⟩

/-- Claim C10, witness at a concrete task and solution. -/
theorem c10_is_identical_notimplemented_witness :
    taskIsIdentical missTask none = .notImplemented ∧
    pyTruthy (taskIsIdentical missTask none) = true ∧
    solutionIsIdentical sampleSol none = .notImplemented ∧
    pyTruthy (solutionIsIdentical sampleSol none) = true :=
  c10_is_identical_notimplemented missTask sampleSol

/-- Claim C5, counterexample: `Task.__post_init__` never compares cell
values against the `HexSymbol` alphabet.  A 1x1 int8 matrix holding 100,
a value outside the alphabet, passes construction, although the claim
says construction must fail. -/
theorem c5_alphabet_never_checked :
    taskPostInit ⟨.d2 1 [[100]], true, .d2 1 [[1]], .d1 [1], 2, true⟩ = .ok () ∧
    (100 : Int) ∉ hexSymbolValues := by
  decide

/-- Claim C5, amended: `Task` construction raises `ValueError` exactly
when the matrix dtype is not int8, the matrix or the daemons array is
not 2-D, the daemon and cost counts differ, or the buffer size is not
int8-typed or not positive; cell values are never checked against the
alphabet, and a 0-d daemons or costs array makes the validator itself
crash with `IndexError` instead of raising a validation error. -/
theorem c5_construction_characterization (ti : TaskInput) :
    ((ti.daemons.shape0 = none ∨ ti.daemonsCosts.shape0 = none) →
      taskPostInit ti = .error .indexError) ∧
    (∀ ds cs, ti.daemons.shape0 = some ds → ti.daemonsCosts.shape0 = some cs →
      ((taskPostInit ti = .ok ()) ↔
        (ti.matrixDtypeInt8 = true ∧ ti.matrix.ndim = 2 ∧ ti.daemons.ndim = 2 ∧
         ds = cs ∧ ti.bufferDtypeInt8 = true ∧ 0 < ti.bufferSize)) ∧
      (taskPostInit ti = .ok () ∨ taskPostInit ti = .error .valueError)) := by
  rcases hd : ti.daemons.shape0 with _ | ds'
  · refine ⟨fun _ => ?_, fun ds cs hds => ?_⟩
    · unfold taskPostInit; rw [hd]
    · cases hds
  rcases hc : ti.daemonsCosts.shape0 with _ | cs'
  · refine ⟨fun _ => ?_, fun ds cs hds hcs => ?_⟩
    · unfold taskPostInit; rw [hd, hc]
    · cases hcs
  have hred : taskPostInit ti =
      (if !ti.matrixDtypeInt8 || (ti.matrix.ndim != 2) || (ti.daemons.ndim != 2) ||
          (ds' != cs') || !(ti.bufferDtypeInt8 && decide (0 < ti.bufferSize)) then
        .error .valueError
      else .ok ()) := by
    unfold taskPostInit; rw [hd, hc]
  refine ⟨fun h => ?_, fun ds cs hds hcs => ?_⟩
  · rcases h with h | h
    · cases h
    · cases h
  have hde : ds' = ds := Option.some.inj hds
  have hce : cs' = cs := Option.some.inj hcs
  rw [hde, hce] at hred
  cases hcond : (!ti.matrixDtypeInt8 || (ti.matrix.ndim != 2) || (ti.daemons.ndim != 2) ||
      (ds != cs) || !(ti.bufferDtypeInt8 && decide (0 < ti.bufferSize))) with
  | false =>
    have hok : taskPostInit ti = Except.ok () := by rw [hred, hcond]; rfl
    simp only [Bool.or_eq_false_iff, Bool.not_eq_false', bne_eq_false_iff_eq,
      Bool.and_eq_true, decide_eq_true_eq] at hcond
    obtain ⟨⟨⟨⟨h1, h2⟩, h3⟩, h4⟩, h5, h6⟩ := hcond
    exact ⟨⟨fun _ => ⟨h1, h2, h3, h4, h5, h6⟩, fun _ => hok⟩, Or.inl hok⟩
  | true =>
    have herr : taskPostInit ti = Except.error PyErr.valueError := by
      rw [hred, hcond]; rfl
    refine ⟨⟨fun h => absurd (herr.symm.trans h) (fun hh => by cases hh), fun h => ?_⟩,
      Or.inr herr⟩
    exfalso
    obtain ⟨h1, h2, h3, h4, h5, h6⟩ := h
    simp [h1, h2, h3, h4, h5, h6] at hcond

/-- Claim C5, amended-theorem witness at a concrete malformed input: a
0-d daemons array makes construction crash with `IndexError`. -/
theorem c5_construction_characterization_witness :
    taskPostInit ⟨.d2 1 [[1]], true, .d0 5, .d1 [1], 2, true⟩ = .error .indexError :=
  (c5_construction_characterization ⟨.d2 1 [[1]], true, .d0 5, .d1 [1], 2, true⟩).1
    (Or.inl rfl)

/-- Claim C2, counterexample: the scoring oracle matches the FULL padded
daemon row, not the true (STOP-stripped) pattern.  On `padTask` the
daemon's true pattern `[1]` (true length 1) occurs in the buffer `[1]`
of the path `[[0, 0]]`, so the claim requires the daemon to be active;
the code skips it because the padded row `[1, -1]` has window length 2,
longer than the buffer, and reports it inactive with zero points. -/
theorem c2_padded_matching_counterexample :
    ValidTask padTask ∧
    fromTask (.d2 2 [[0, 0]]) padTask =
      .solution ⟨[[0, 0]], [1], [false], 0⟩ ∧
    specDaemonActiveB [1] [1, -1] = true := by
  decide

/-- Claim C6, counterexample: a coordinate with a negative in-range row
index does not correspond to any grid cell, yet `from_task` neither
returns `NoSolution` nor raises: numpy indexing wraps `-1` around to the
last row and the path is scored normally, producing a `Solution`. -/
theorem c6_negative_index_scored :
    ValidTask colTask ∧
    fromTask (.d2 2 [[-1, 0]]) colTask =
      .solution ⟨[[-1, 0]], [2], [false], 0⟩ ∧
    (-1 : Int) < 0 := by
  decide

/-- Valid task whose single daemon (true length 3) can never be
activated, because the buffer capacity is only 1. -/
def unreachTask : Task := ⟨[[1]], [[1, 1, 1]], [1], 1⟩

/-- Claim C7, counterexample: on `unreachTask` no daemon can ever be
activated (its true length 3 exceeds the buffer capacity 1), yet both
copies of `unused_cell_reward` return `0.1 * (1 / 3) = 1/30`, not 0. -/
theorem c7_unreachable_daemon_nonzero_eps :
    ValidTask unreachTask ∧
    dLengths unreachTask = [3] ∧
    unreachTask.bufferSize = 1 ∧
    unusedCellReward unreachTask = .ok (.fin (1 / 30)) ∧
    unusedCellReward2 unreachTask = .ok (.fin (1 / 30)) ∧
    (1 / 30 : ℚ) ≠ 0 := by
  have hval : unusedCellReward unreachTask = .ok (npfScale (1 / 10) (.fin (1 / 3))) := rfl
  have hq : (1 / 10 : ℚ) * (1 / 3) = 1 / 30 := by norm_num
  have hgoal : unusedCellReward unreachTask = .ok (.fin (1 / 30)) := by
    rw [hval]
    show Except.ok (NpF.fin ((1 / 10 : ℚ) * (1 / 3))) = _
    rw [hq]
  exact ⟨by decide, by decide, by decide, hgoal, hgoal, by norm_num⟩

/-- Claim C7, amended: in both code paths the tie-break weight equals
`0.1 × min_i(cost_i / L_i)` whenever the daemon set is non-empty and
every true length is positive — whether or not any daemon can actually
be activated.  The division guard in the second copy is dead code: an
empty daemon set raises `ValueError` from `.min()` in both copies
(outside the try block), and a zero true length produces an
infinity/nan rather than 0. -/
theorem c7_eps_formula (t : Task) (hv : ValidTask t) (hne : t.daemons ≠ [])
    (hL : ∀ L ∈ dLengths t, 0 < L) :
    unusedCellReward t = .ok (.fin (specTieBreakEps t)) ∧
    unusedCellReward2 t = .ok (.fin (specTieBreakEps t)) := by
  suffices h : unusedCellReward t = .ok (.fin (specTieBreakEps t)) from ⟨h, h⟩
  obtain ⟨-, -, hcost, -, -, -, -, -⟩ := hv
  have hmap : (t.daemonsCosts.zip (dLengths t)).map (fun cl => npDivScalar cl.1 cl.2)
      = (costPerSymbol t).map NpF.fin := by
    unfold costPerSymbol
    rw [List.map_map]
    apply List.map_congr_left
    intro cl hcl
    have h2 := (List.of_mem_zip hcl).2
    have hpos := hL _ h2
    unfold npDivScalar
    rw [if_pos (by omega)]
    rfl
  have hzne : costPerSymbol t ≠ [] := by
    have h1 : t.daemonsCosts.length = t.daemons.length := hcost
    have h2 : (dLengths t).length = t.daemons.length := by
      unfold dLengths; rw [List.length_map]
    have h3 : 0 < t.daemons.length := List.length_pos.mpr hne
    intro hmapnil
    unfold costPerSymbol at hmapnil
    have hlen := congrArg List.length hmapnil
    rw [List.length_map, List.length_zip, h1, h2] at hlen
    simp only [List.length_nil, Nat.min_self] at hlen
    omega
  cases hcs : costPerSymbol t with
  | nil => exact absurd hcs hzne
  | cons x xs =>
    have hmin : npfMinList ((t.daemonsCosts.zip (dLengths t)).map
        (fun cl => npDivScalar cl.1 cl.2)) = .ok (.fin (xs.foldl min x)) := by
      rw [hmap, hcs, List.map_cons]
      show Except.ok (List.foldl npfMin2 (NpF.fin x) (List.map NpF.fin xs)) = _
      rw [foldl_npfMin2_fin]
    unfold unusedCellReward
    rw [hmin]
    unfold specTieBreakEps
    rw [hcs]
    rfl

/-- Claim C7, amended-theorem witness: on `padTask` (one daemon of true
length 1, cost 3) both copies return `0.1 * 3 = specTieBreakEps`. -/
theorem c7_eps_formula_witness :
    unusedCellReward padTask = .ok (.fin (specTieBreakEps padTask)) ∧
    unusedCellReward2 padTask = .ok (.fin (specTieBreakEps padTask)) :=
  c7_eps_formula padTask (by decide) (by decide) (by decide)

/-- Claim C9 (confirmed): for a valid task and a non-empty in-grid path
of shape `(n, 2)`, `from_task` propagates an uncaught broadcast
`ValueError` whenever the path is longer than the buffer (the slice
assignment `buffer[:k] = ...` mismatches, and only `IndexError` and
`TypeError` are caught there); for any path no longer than the buffer it
instead returns a `Solution`. -/
theorem c9_overlong_path_raises (t : Task) (rows : List (List Int))
    (hv : ValidTask t) (hne : rows ≠ [])
    (hin : ∀ rc ∈ rows, ∃ r c, rc = [r, c] ∧
      0 ≤ r ∧ r < (t.n : Int) ∧ 0 ≤ c ∧ c < (t.m : Int)) :
    (t.bufferSize < (rows.length : Int) →
      fromTask (.d2 2 rows) t = .raised .valueError) ∧
    ((rows.length : Int) ≤ t.bufferSize →
      ∃ s, fromTask (.d2 2 rows) t = .solution s) := by
  have hsome : ∀ rc ∈ rows, (npCell t.matrix (rc.getD 0 0) (rc.getD 1 0)).isSome := by
    intro rc hrc
    obtain ⟨r, c, rfl, hr0, hrn, hc0, hcm⟩ := hin rc hrc
    show (npCell t.matrix r c).isSome
    rw [npCell_isSome_iff t hv.1 r c]
    exact ⟨⟨by omega, hrn⟩, ⟨by omega, hcm⟩⟩
  constructor
  · intro hlt
    rw [fromTask_reduce t rows hne hsome, if_pos hlt]
  · intro hle
    exact ⟨_, fromTask_success t rows hne hsome hle⟩

/-- Claim C9, witness: on the 2x1 grid of `colTask` (buffer 2), the
3-step in-grid path `[[0,0],[1,0],[0,0]]` makes `from_task` raise the
uncaught `ValueError`. -/
theorem c9_overlong_path_raises_witness :
    fromTask (.d2 2 [[0, 0], [1, 0], [0, 0]]) colTask = .raised .valueError :=
  (c9_overlong_path_raises colTask [[0, 0], [1, 0], [0, 0]] (by decide)
    (by decide)
    (by
      intro rc hrc
      simp only [List.mem_cons, List.not_mem_nil, or_false] at hrc
      rcases hrc with rfl | rfl | rfl
      · exact ⟨0, 0, rfl, by decide, by decide, by decide, by decide⟩
      · exact ⟨1, 0, rfl, by decide, by decide, by decide, by decide⟩
      · exact ⟨0, 0, rfl, by decide, by decide, by decide, by decide⟩)).1
    (by decide)

/-- Claim C6, amended: for a valid task, `from_task` raises `IndexError`
for a 0-d or 1-d path array (reading `path.shape[1]`), raises
`ValueError` for a 2-d path whose rows are not pairs, returns
`NoSolution` for the empty path and for any path containing a coordinate
outside numpy's index range (row not in `[-n, n)` or column not in
`[-m, m)`), and SCORES — returning a `Solution` — any non-empty path
within the buffer bound all of whose coordinates are in numpy's index
range, including negative in-range coordinates, which wrap around to
index from the end of the axis. -/
theorem c6_rejection_characterization (t : Task) (hv : ValidTask t) :
    (∀ v, fromTask (.d0 v) t = .raised .indexError) ∧
    (∀ vs, fromTask (.d1 vs) t = .raised .indexError) ∧
    (∀ cols rows, cols ≠ 2 → fromTask (.d2 cols rows) t = .raised .valueError) ∧
    (fromTask (.d2 2 []) t = .noSolution) ∧
    (∀ rows, (∃ rc ∈ rows, npCell t.matrix (rc.getD 0 0) (rc.getD 1 0) = none) →
      fromTask (.d2 2 rows) t = .noSolution) ∧
    (∀ r c, npCell t.matrix r c = none ↔
      ¬((-(t.n : Int) ≤ r ∧ r < t.n) ∧ (-(t.m : Int) ≤ c ∧ c < t.m))) ∧
    (∀ rows, rows ≠ [] → (rows.length : Int) ≤ t.bufferSize →
      (∀ rc ∈ rows, (npCell t.matrix (rc.getD 0 0) (rc.getD 1 0)).isSome) →
      ∃ s, fromTask (.d2 2 rows) t = .solution s) := by
  refine ⟨fun _ => rfl, fun _ => rfl, ?_, rfl, ?_, ?_, ?_⟩
  · intro cols rows hcols
    rw [fromTask_d2, if_pos (bne_iff_ne.mpr hcols)]
  · intro rows hex
    have hne : rows ≠ [] := by
      rintro rfl
      obtain ⟨rc, hrc, -⟩ := hex
      cases hrc
    rw [fromTask_d2, if_neg (by decide), if_neg (by simp [hne]),
      readPath_none t.matrix rows hex]
  · intro r c
    rw [← Option.not_isSome_iff_eq_none, npCell_isSome_iff t hv.1 r c]
  · intro rows hne hle hsome
    exact ⟨_, fromTask_success t rows hne hsome hle⟩

/-- Claim C6, amended-theorem witness: on `colTask`, the out-of-range
path `[[2, 0]]` is rejected as `NoSolution`, while the wrapping path
`[[-1, 0]]` is scored into a `Solution`. -/
theorem c6_rejection_characterization_witness :
    fromTask (.d2 2 [[2, 0]]) colTask = .noSolution ∧
    (∃ s, fromTask (.d2 2 [[-1, 0]]) colTask = .solution s) :=
  ⟨(c6_rejection_characterization colTask (by decide)).2.2.2.2.1 [[2, 0]]
      ⟨[2, 0], List.mem_cons_self _ _, by decide⟩,
    (c6_rejection_characterization colTask (by decide)).2.2.2.2.2.2 [[-1, 0]]
      (by decide) (by decide) (by decide)⟩

/-- Claim C2, amended: for a valid task and a scoreable path (non-empty,
in index range, within the buffer), `from_task` returns a `Solution`
in which daemon `i` is active iff the daemon's FULL PADDED row — not
its STOP-stripped true pattern — of length `Lp_i = daemons.shape[1]`
occurs contiguously at some offset `p` with `0 ≤ p ≤ k - Lp_i` in the
k-symbol buffer sequence (so a daemon whose padded row is longer than
`k` is never active), and `total_points` is the int8-wrapping dot
product of the costs with that active vector. -/
theorem c2_matching_characterization (t : Task) (rows : List (List Int))
    (hv : ValidTask t) (hne : rows ≠ [])
    (hsome : ∀ rc ∈ rows, (npCell t.matrix (rc.getD 0 0) (rc.getD 1 0)).isSome)
    (hlen : (rows.length : Int) ≤ t.bufferSize) :
    ∃ s, fromTask (.d2 2 rows) t = .solution s ∧
      s.bufferSequence.length = rows.length ∧
      s.activeDaemons.length = t.dCount ∧
      (∀ i, i < t.dCount →
        (s.activeDaemons.getD i false = true ↔
          ((t.daemons.getD i []).length ≤ rows.length ∧
            ∃ p ∈ Finset.range (rows.length - (t.daemons.getD i []).length + 1),
              ∀ j ∈ Finset.range (t.daemons.getD i []).length,
                s.bufferSequence.getD (p + j) 0 = (t.daemons.getD i []).getD j 0))) ∧
      s.totalPoints = toInt8 (∑ i ∈ Finset.range t.dCount,
        (if s.activeDaemons.getD i false then t.daemonsCosts.getD i 0 else 0)) := by
  have hplen : (pathSyms t rows).length = rows.length := List.length_map _ _
  refine ⟨⟨rows, pathSyms t rows,
    t.daemons.map (fun d => daemonHit (pathSyms t rows) d),
    toInt8 (dotCosts t.daemonsCosts
      (t.daemons.map (fun d => daemonHit (pathSyms t rows) d)))⟩,
    fromTask_success t rows hne hsome hlen, hplen, List.length_map _ _, ?_, ?_⟩
  · intro i hi
    show (t.daemons.map (fun d => daemonHit (pathSyms t rows) d)).getD i false
        = true ↔ _
    rw [getD_map_lt t.daemons _ i hi false [], daemonHit_iff, hplen]
  · show toInt8 (dotCosts t.daemonsCosts
        (t.daemons.map (fun d => daemonHit (pathSyms t rows) d))) = _
    congr 1
    have hclen : t.daemonsCosts.length
        = (t.daemons.map (fun d => daemonHit (pathSyms t rows) d)).length := by
      rw [List.length_map]
      exact hv.2.2.1
    rw [dotCosts_eq_sum _ _ hclen, hv.2.2.1]

/-- Claim C1, counterexample: the Solution packaged by `ScipSolver.solve`
is NOT reproduced field-wise by the scoring oracle when the optimal path
uses fewer slots than the buffer.  On `c1Task` the valuation `c1Val` is
feasible, attains the maximal objective `11/10` (with the code's own
tie-break weight `ε = 1/10`), and is the UNIQUE optimum among the 32
canonical valuations, so the exact solver (default config: absgap 0)
returns exactly this assignment, a path with one coordinate.  The
packaged `buffer_sequence` is `[1, 0]` — the extractor always emits
`buffer_size` entries — while `Solution.from_task` re-scores the same
path to the 1-entry buffer `[1]`.  The two results differ. -/
theorem c1_package_not_reproduced_by_oracle :
    ValidTask c1Task ∧
    unusedCellReward c1Task = .ok (.fin (1 / 10)) ∧
    ScipFeasible c1Task c1Val ∧
    scipObjective c1Task (1 / 10) c1Val = 11 / 10 ∧
    (c1AllVals.all (fun v => !(decide (ScipFeasible c1Task v))
        || decide (c1ObjTimes10 v ≤ 11))) = true ∧
    (c1AllVals.all (fun v => !(decide (ScipFeasible c1Task v) && (c1ObjTimes10 v == 11))
        || decide (v = c1Val))) = true ∧
    scipSolve c1Task c1Val = .solution ⟨[[0, 0]], [1, 0], [true], 1⟩ ∧
    fromTask (.d2 2 [[0, 0]]) c1Task = .solution ⟨[[0, 0]], [1], [true], 1⟩ ∧
    ([1, 0] : List Int) ≠ [1] := by
  refine ⟨by decide, ?_, by decide, ?_, by decide, by decide, by decide, by decide,
    by decide⟩
  · have h1 : unusedCellReward c1Task
        = .ok (.fin ((1 / 10 : ℚ) * (((1 : Int) : ℚ) / ((1 : Int) : ℚ)))) := rfl
    rw [h1]
    norm_num
  · rw [c1_obj_scale]
    have h2 : c1ObjTimes10 c1Val = 11 := by decide
    rw [h2]
    norm_num

/-- Claim C1, amended: for every valid task and every valuation
satisfying the SCIP model's constraints whose extracted path is
non-empty (length `k`), re-scoring the extracted path through
`Solution.from_task` yields a `Solution` whose `buffer_sequence` equals
the first `k` entries of the packaged `buffer_nums`; the packaged array
always has `buffer_size` entries (zeros past the path), so the two
fields agree in full exactly when the path fills the buffer.  Whenever
the valuation's daemon indicators `y` coincide with the oracle's
recomputed `active_daemons` (the model constrains `z = 1` to imply a
true-pattern match but allows `y = 0` with a match present, so this is a
genuine hypothesis), the packaged `total_points` is also reproduced. -/
theorem c1_oracle_prefix_of_package (t : Task) (v : ScipVal) (hv : ValidTask t)
    (hn : t.n ≤ 127) (hm : t.m ≤ 127) (hf : ScipFeasible t v)
    (hne : scipPath t v ≠ []) :
    ∃ s, fromTask (.d2 2 (scipPath t v)) t = .solution s ∧
      s.bufferSequence = (scipBufferNums t v).take (scipPath t v).length ∧
      (scipBufferNums t v).length = stepCount t ∧
      (scipActive t v = s.activeDaemons →
        scipTotalPoints t v = s.totalPoints) := by
  have hpath := scipPath_structure t v hf
  have hkle : usedBuffer t v ≤ stepCount t := hf.2.2.2.1
  have hplen : (scipPath t v).length = usedBuffer t v := by
    rw [hpath, List.length_map, List.length_range]
  have hsome : ∀ rc ∈ scipPath t v,
      (npCell t.matrix (rc.getD 0 0) (rc.getD 1 0)).isSome := by
    intro rc hrc
    rw [hpath, List.mem_map] at hrc
    obtain ⟨tt, httmem, rfl⟩ := hrc
    have htt := List.mem_range.mp httmem
    obtain ⟨ha, hb, -⟩ := cellAt_spec t v hf tt (by omega) htt
    have e1 : toInt8 ((cellAt t v tt).1 : Int) = ((cellAt t v tt).1 : Int) :=
      toInt8_eq_self _ (by omega) (by omega)
    have e2 : toInt8 ((cellAt t v tt).2 : Int) = ((cellAt t v tt).2 : Int) :=
      toInt8_eq_self _ (by omega) (by omega)
    show (npCell t.matrix (toInt8 ((cellAt t v tt).1 : Int))
        (toInt8 ((cellAt t v tt).2 : Int))).isSome
    rw [e1, e2, npCell_nat_eq t hv.1 _ _ ha hb]
    rfl
  have hlen : ((scipPath t v).length : Int) ≤ t.bufferSize := by
    rw [hplen]
    have hb := hv.2.2.2.1
    have hsc : stepCount t = t.bufferSize.toNat := rfl
    omega
  refine ⟨_, fromTask_success t (scipPath t v) hne hsome hlen, ?_, ?_, ?_⟩
  · show pathSyms t (scipPath t v) = (scipBufferNums t v).take (scipPath t v).length
    rw [hplen]
    unfold scipBufferNums
    rw [← List.map_take, List.take_range, min_eq_left hkle]
    conv_lhs => rw [hpath]
    unfold pathSyms
    rw [List.map_map]
    apply List.map_congr_left
    intro tt httmem
    have htt := List.mem_range.mp httmem
    obtain ⟨ha, hb, -⟩ := cellAt_spec t v hf tt (by omega) htt
    have e1 : toInt8 ((cellAt t v tt).1 : Int) = ((cellAt t v tt).1 : Int) :=
      toInt8_eq_self _ (by omega) (by omega)
    have e2 : toInt8 ((cellAt t v tt).2 : Int) = ((cellAt t v tt).2 : Int) :=
      toInt8_eq_self _ (by omega) (by omega)
    show (npCell t.matrix (toInt8 ((cellAt t v tt).1 : Int))
        (toInt8 ((cellAt t v tt).2 : Int))).getD 0 = toInt8 (bufferVal t v tt)
    rw [e1, e2, npCell_nat_eq t hv.1 _ _ ha hb, Option.getD_some,
      bufferVal_single t v hf tt (by omega) htt]
    obtain ⟨hlb, hub⟩ := matAt_bounds t hv _ _ ha hb
    rw [toInt8_eq_self _ hlb hub]
  · show ((List.range (stepCount t)).map
        (fun tt => toInt8 (bufferVal t v tt))).length = stepCount t
    rw [List.length_map, List.length_range]
  · intro hya
    show scipTotalPoints t v = toInt8 (dotCosts t.daemonsCosts
      (t.daemons.map (fun d => daemonHit (pathSyms t (scipPath t v)) d)))
    unfold scipTotalPoints
    rw [hya]

/-- Claim C1, amended-theorem witness: the hypotheses hold concretely on
`c1Task` with the optimal valuation `c1Val`. -/
theorem c1_oracle_prefix_of_package_witness :
    ∃ s, fromTask (.d2 2 (scipPath c1Task c1Val)) c1Task = .solution s ∧
      s.bufferSequence = (scipBufferNums c1Task c1Val).take (scipPath c1Task c1Val).length ∧
      (scipBufferNums c1Task c1Val).length = stepCount c1Task ∧
      (scipActive c1Task c1Val = s.activeDaemons →
        scipTotalPoints c1Task c1Val = s.totalPoints) :=
  c1_oracle_prefix_of_package c1Task c1Val (by decide) (by decide) (by decide)
    (by decide) (by decide)

/-- Claim C8 (code bug): `SoftTask.__init__` calls `recalc_costs()`
unconditionally as its last step, so an explicitly supplied costs list
is always discarded and replaced by the daemon lengths — contradicting
the constructor's own docstring ("Optional list of costs of each
daemon").  Supplying `costs=[5]` for the single daemon `[1C, 55]` yields
a `SoftTask` whose costs are `[2]` (the daemon's length), and the frozen
`Task` produced by `make_hard` carries `[2]`, not `[5]`. -/
theorem c8_supplied_costs_discarded :
    softTaskInit [["1C"]] [["1C", "55"]] 3 (some [5])
      = .ok ⟨[["1C"]], [["1C", "55"]], 3, [2]⟩ ∧
    makeHard ⟨[["1C"]], [["1C", "55"]], 3, [2]⟩
      = .ok ⟨[[1]], [[1, 2]], [2], 3⟩ ∧
    ([2] : List Int) ≠ [5] := by
  decide

/-- Claim C2, amended-theorem witness: scoring the two-cell path
`[[0,0],[0,1]]` on `padTask`. -/
theorem c2_matching_characterization_witness :
    ∃ s, fromTask (.d2 2 [[0, 0], [0, 1]]) padTask = .solution s ∧
      s.bufferSequence.length = 2 ∧
      s.activeDaemons.length = padTask.dCount ∧
      (∀ i, i < padTask.dCount →
        (s.activeDaemons.getD i false = true ↔
          ((padTask.daemons.getD i []).length ≤ 2 ∧
            ∃ p ∈ Finset.range (2 - (padTask.daemons.getD i []).length + 1),
              ∀ j ∈ Finset.range (padTask.daemons.getD i []).length,
                s.bufferSequence.getD (p + j) 0
                  = (padTask.daemons.getD i []).getD j 0))) ∧
      s.totalPoints = toInt8 (∑ i ∈ Finset.range padTask.dCount,
        (if s.activeDaemons.getD i false then padTask.daemonsCosts.getD i 0 else 0)) :=
  c2_matching_characterization padTask [[0, 0], [0, 1]] (by decide) (by decide)
    (by decide) (by decide)

end Breach
